import Mathlib

/-!
Verification of the scan orchestration and classification engine of the
prisma-airs scanner, embedded shallowly from the Python sources:

* `scripts/scan.py` — the HTTP variant (a `requests`-based client with a
  retry loop), embedded in namespace `Scripts`;
* `src/prisma_airs_skill/scan.py` and
  `prisma-airs-plugin/src/prisma_airs_skill/scan.py` — the SDK variants
  (identical classification logic; the plugin variant additionally threads
  session/transaction identifiers), embedded in namespace `Sdk`.

Python dictionaries are modelled as insertion-ordered association lists,
machine time as integers (the rate limiter only compares and subtracts
timestamps), and fallible Python code as `Except`-valued functions.
-/

set_option autoImplicit false

/-- A JSON-like Python value: the shapes that flow through the scanner's
configuration dictionaries and parsed API responses. -/
inductive Val where
  | vint : Int → Val
  | vstr : String → Val
  | vbool : Bool → Val
  | vdict : List (String × Val) → Val
  | vlist : List Val → Val

/-- First-match lookup in an insertion-ordered association list, the
read semantics of a Python `dict` (which cannot hold duplicate keys). -/
def lookupKV {α : Type} : List (String × α) → String → Option α
  | [], _ => none
  | (k, v) :: rest, key => if k = key then some v else lookupKV rest key

/-- `d[key] = v` on an insertion-ordered association list: replace the
first occurrence in place, or append a fresh entry at the end — the
update semantics of a Python `dict`. -/
def setKV {α : Type} : List (String × α) → String → α → List (String × α)
  | [], key, v => [(key, v)]
  | (k, w) :: rest, key, v =>
    if k = key then (k, v) :: rest else (k, w) :: setKV rest key v

/-- Keys of an association list, in insertion order. -/
def keysKV {α : Type} (l : List (String × α)) : List String := l.map Prod.fst

/-- Python truthiness of a `Val`: `0`, `""`, `False`, `{}` and `[]` are
falsy, everything else truthy. -/
def truthy : Val → Bool
  | .vint n => n != 0
  | .vstr s => s ≠ ""
  | .vbool b => b
  | .vdict d => !d.isEmpty
  | .vlist l => !l.isEmpty

/-- `d.get(key)` read as a boolean flag: a missing key is Python `None`,
which is falsy; a present value contributes its truthiness. -/
def flagOf (d : List (String × Val)) (key : String) : Bool :=
  match lookupKV d key with
  | some v => truthy v
  | none => false

mutual

/-- `PrismaAIRS._deep_merge` (scripts/scan.py lines 111-120 and
src/prisma_airs_skill/scan.py lines 128-137): start from a copy of
`base` and walk the entries of `override` in order; when both sides hold
a dict under the same key, merge recursively, otherwise the override
value replaces wholesale. Since the Python mutates a fresh copy of
`base`, the loop is a fold threading the updated dict. -/
def deep_merge : List (String × Val) → List (String × Val) → List (String × Val)
  | base, [] => base
  | base, (key, value) :: rest => deep_merge (deep_merge_set base key value) rest
termination_by b o => sizeOf o
decreasing_by all_goals simp_wf <;> omega

/-- One iteration of the `_deep_merge` loop: `result[key] = ...`, merging
recursively when both the existing and the incoming value are dicts. -/
def deep_merge_set (base : List (String × Val)) (key : String) (value : Val) :
    List (String × Val) :=
  setKV base key (deep_merge_val (lookupKV base key) value)
termination_by sizeOf value + 1
decreasing_by all_goals simp_wf <;> omega

/-- The value stored by one `_deep_merge` iteration: the recursive merge
when the existing entry and the override value are both dicts, the
override value wholesale otherwise. -/
def deep_merge_val (existing : Option Val) (value : Val) : Val :=
  match existing, value with
  | some (Val.vdict d1), Val.vdict d2 => Val.vdict (deep_merge d1 d2)
  | _, _ => value
termination_by sizeOf value
decreasing_by all_goals simp_wf <;> omega

end

theorem lookupKV_setKV_self {α : Type} (l : List (String × α)) (k : String) (v : α) :
    lookupKV (setKV l k v) k = some v := by
  induction l with
  | nil => simp [setKV, lookupKV]
  | cons hd tl ih =>
    obtain ⟨k', w⟩ := hd
    by_cases h : k' = k
    · simp [setKV, lookupKV, h]
    · simp [setKV, lookupKV, h, ih]

theorem lookupKV_setKV_ne {α : Type} (l : List (String × α)) (k k' : String) (v : α)
    (h : k' ≠ k) : lookupKV (setKV l k v) k' = lookupKV l k' := by
  have hk : k ≠ k' := fun hh => h hh.symm
  induction l with
  | nil => simp [setKV, lookupKV, hk]
  | cons hd tl ih =>
    obtain ⟨k0, w⟩ := hd
    by_cases h0 : k0 = k
    · subst h0
      simp [setKV, lookupKV, hk]
    · simp [setKV, lookupKV, h0, ih]

theorem lookupKV_eq_none_of_not_mem {α : Type} (l : List (String × α)) (k : String)
    (h : k ∉ keysKV l) : lookupKV l k = none := by
  induction l with
  | nil => rfl
  | cons hd tl ih =>
    obtain ⟨k0, w⟩ := hd
    simp only [keysKV, List.map_cons, List.mem_cons] at h
    push_neg at h
    have hk : k0 ≠ k := fun hh => h.1 hh.symm
    simp only [lookupKV, if_neg hk]
    exact ih h.2

/-- The per-key result of a right-biased deep merge: the override value
wins, except that two dicts under the same key merge recursively. -/
def mergedAt (bv : Option Val) (ov : Option Val) : Option Val :=
  match ov with
  | none => bv
  | some v => some (deep_merge_val bv v)

theorem lookupKV_deep_merge_set_self (b : List (String × Val)) (k : String) (v : Val) :
    lookupKV (deep_merge_set b k v) k = mergedAt (lookupKV b k) (some v) := by
  rw [deep_merge_set, lookupKV_setKV_self]
  rfl

theorem lookupKV_deep_merge_set_ne (b : List (String × Val)) (k k' : String) (v : Val)
    (h : k' ≠ k) : lookupKV (deep_merge_set b k v) k' = lookupKV b k' := by
  rw [deep_merge_set, lookupKV_setKV_ne _ _ _ _ h]

theorem deep_merge_lookup (o : List (String × Val)) :
    ∀ (b : List (String × Val)) (k : String), (keysKV o).Nodup →
      lookupKV (deep_merge b o) k = mergedAt (lookupKV b k) (lookupKV o k) := by
  induction o with
  | nil =>
    intro b k _
    simp [deep_merge, lookupKV, mergedAt]
  | cons hd rest ih =>
    intro b k hnd
    obtain ⟨k0, v0⟩ := hd
    simp only [keysKV, List.map_cons, List.nodup_cons] at hnd
    obtain ⟨hk0, hndr⟩ := hnd
    rw [deep_merge, ih _ k hndr]
    by_cases hk : k = k0
    · subst hk
      have hrest : lookupKV rest k = none := lookupKV_eq_none_of_not_mem rest k hk0
      rw [hrest, lookupKV_deep_merge_set_self]
      simp [lookupKV, mergedAt]
    · have hne : k ≠ k0 := hk
      rw [lookupKV_deep_merge_set_ne _ _ _ _ hne]
      have ho : lookupKV ((k0, v0) :: rest) k = lookupKV rest k := by
        have hz : k0 ≠ k := fun hh => hne hh.symm
        simp [lookupKV, hz]
      rw [ho]

/-! ### Heap model of `_deep_merge` for the frame property

`_deep_merge` mutates a Python dict object in place (`result[key] = ...`)
after taking a shallow copy of `base`; whether it leaves its two argument
objects untouched is a statement about object identity, so it is settled
over an explicit heap of dict objects. Dict-valued entries are references
into the heap; scalar entries are immediate. Recursion depth is bounded by
explicit fuel (Python's call stack); the frame theorem quantifies over the
fuel and only constrains runs that return. -/

/-- A Python value as stored inside a dict object: immediates, or a
reference to another dict object in the heap. -/
inductive HVal where
  | hint : Int → HVal
  | hstr : String → HVal
  | href : Nat → HVal
deriving DecidableEq

/-- A dict object: insertion-ordered entries. -/
abbrev HDict := List (String × HVal)

/-- The heap: dict objects addressed by position; allocation appends. -/
abbrev Heap := List HDict

mutual

/-- `_deep_merge(base, override)` over the heap: read both argument
objects, allocate `result = base.copy()` (a fresh object sharing entry
values, references included), then run the update loop over the entries
of `override`. Returns the address of the freshly built result. -/
def deep_merge_heap : Nat → Nat → Nat → Heap → Option (Nat × Heap)
  | 0, _, _, _ => none
  | fuel + 1, aBase, aOverride, h =>
    match h[aBase]?, h[aOverride]? with
    | some dBase, some dOverride => deep_merge_heap_loop fuel h.length (h ++ [dBase]) dOverride
    | _, _ => none

/-- The `for key, value in override.items()` loop of `_deep_merge`,
mutating only the result object at address `r`: when the current entry
of `result` and the incoming value are both dict references, store a
reference to their recursive merge, otherwise store the incoming value. -/
def deep_merge_heap_loop : Nat → Nat → Heap → List (String × HVal) → Option (Nat × Heap)
  | 0, _, _, _ => none
  | _ + 1, r, h, [] => some (r, h)
  | fuel + 1, r, h, (key, value) :: rest =>
    match h[r]? with
    | none => none
    | some dR =>
      match lookupKV dR key, value with
      | some (HVal.href aB'), HVal.href aO' =>
        match deep_merge_heap fuel aB' aO' h with
        | none => none
        | some (r', h') =>
          match h'[r]? with
          | none => none
          | some dR' =>
            deep_merge_heap_loop fuel r (h'.set r (setKV dR' key (HVal.href r'))) rest
      | _, _ => deep_merge_heap_loop fuel r (h.set r (setKV dR key value)) rest

end

/-- Joint frame property of the heap-level merge, by induction on fuel:
a returning run of `_deep_merge` never changes any pre-existing heap
object other than (for the loop) the freshly allocated result object,
and the result address is the allocation point `h.length`. -/
theorem deep_merge_heap_frame : ∀ fuel : Nat,
    (∀ aB aO (h : Heap) r h', deep_merge_heap fuel aB aO h = some (r, h') →
      r = h.length ∧ h.length < h'.length ∧ ∀ i, i < h.length → h'[i]? = h[i]?) ∧
    (∀ r (h : Heap) entries r₂ h', deep_merge_heap_loop fuel r h entries = some (r₂, h') →
      r < h.length →
      r₂ = r ∧ h.length ≤ h'.length ∧ ∀ i, i < h.length → i ≠ r → h'[i]? = h[i]?) := by
  intro fuel
  induction fuel with
  | zero =>
    constructor
    · intro aB aO h r h' hrun
      simp [deep_merge_heap] at hrun
    · intro r h entries r₂ h' hrun
      simp [deep_merge_heap_loop] at hrun
  | succ fuel ih =>
    obtain ⟨ihH, ihL⟩ := ih
    constructor
    · intro aB aO h r h' hrun
      rw [deep_merge_heap] at hrun
      cases hB : h[aB]? with
      | none => rw [hB] at hrun; exact absurd hrun (by simp)
      | some dB =>
        cases hO : h[aO]? with
        | none => rw [hB, hO] at hrun; exact absurd hrun (by simp)
        | some dO =>
          rw [hB, hO] at hrun
          simp only at hrun
          have hrlt : h.length < (h ++ [dB]).length := by simp
          obtain ⟨hr2, hlen, hframe⟩ := ihL h.length (h ++ [dB]) dO r h' hrun hrlt
          refine ⟨hr2, ?_, ?_⟩
          · have : (h ++ [dB]).length ≤ h'.length := hlen
            simp at this
            omega
          · intro i hi
            have hne : i ≠ h.length := by omega
            have := hframe i (by simp; omega) hne
            rw [this]
            exact List.getElem?_append_left hi
    · intro r h entries r₂ h' hrun hr
      match entries with
      | [] =>
        rw [deep_merge_heap_loop] at hrun
        obtain ⟨hr2, hh⟩ : r = r₂ ∧ h = h' := by
          have := Option.some.inj hrun
          exact ⟨congrArg Prod.fst this, congrArg Prod.snd this⟩
        subst hr2; subst hh
        exact ⟨rfl, le_refl _, fun i _ _ => rfl⟩
      | (key, value) :: rest =>
        rw [deep_merge_heap_loop] at hrun
        cases hR : h[r]? with
        | none => rw [hR] at hrun; exact absurd hrun (by simp)
        | some dR =>
          rw [hR] at hrun
          simp only at hrun
          by_cases hdd : ∃ aB' aO', lookupKV dR key = some (HVal.href aB') ∧ value = HVal.href aO'
          · obtain ⟨aB', aO', hlk, hv⟩ := hdd
            rw [hlk, hv] at hrun
            simp only at hrun
            cases hrec : deep_merge_heap fuel aB' aO' h with
            | none => rw [hrec] at hrun; exact absurd hrun (by simp)
            | some pr =>
              obtain ⟨r', hmid⟩ := pr
              rw [hrec] at hrun
              simp only at hrun
              obtain ⟨hr'eq, hmidlen, hmidframe⟩ := ihH aB' aO' h r' hmid hrec
              cases hR' : hmid[r]? with
              | none => rw [hR'] at hrun; exact absurd hrun (by simp)
              | some dR' =>
                rw [hR'] at hrun
                simp only at hrun
                have hrmid : r < hmid.length := by omega
                have hrset : r < (hmid.set r (setKV dR' key (HVal.href r'))).length := by
                  simpa using hrmid
                obtain ⟨hr2, hlen2, hframe2⟩ := ihL r _ rest r₂ h' hrun hrset
                refine ⟨hr2, ?_, ?_⟩
                · simp at hlen2
                  omega
                · intro i hi hne
                  have h1 := hframe2 i (by simp; omega) hne
                  have h2 : (hmid.set r (setKV dR' key (HVal.href r')))[i]? = hmid[i]? :=
                    List.getElem?_set_ne (fun hh => hne hh.symm)
                  have h3 := hmidframe i hi
                  rw [h1, h2, h3]
          · have hstep : deep_merge_heap_loop fuel r (h.set r (setKV dR key value)) rest
                = some (r₂, h') := by
              rcases hlk : lookupKV dR key with _ | w
              · rw [hlk] at hrun
                cases value <;> simpa using hrun
              · rw [hlk] at hrun
                cases w with
                | href aB' =>
                  cases value with
                  | href aO' => exact absurd ⟨aB', aO', hlk, rfl⟩ hdd
                  | hint n => simpa using hrun
                  | hstr s => simpa using hrun
                | hint n => cases value <;> simpa using hrun
                | hstr s => cases value <;> simpa using hrun
            have hrset : r < (h.set r (setKV dR key value)).length := by simpa using hr
            obtain ⟨hr2, hlen2, hframe2⟩ := ihL r _ rest r₂ h' hstep hrset
            refine ⟨hr2, by simp at hlen2; omega, ?_⟩
            intro i hi hne
            have h1 := hframe2 i (by simpa using hi) hne
            have h2 : (h.set r (setKV dR key value))[i]? = h[i]? :=
              List.getElem?_set_ne (fun hh => hne hh.symm)
            rw [h1, h2]

/-! ### Rate limiter

`PrismaAIRS._check_rate_limit` (scripts/scan.py lines 184-206,
src/prisma_airs_skill/scan.py lines 191-212; the two are identical).
Timestamps are modelled as integers: the code only subtracts and compares
them. The per-identity dict `self.rate_limits` is modelled as a total map
from identity to timestamp list; the `if user_id not in self.rate_limits`
branch corresponds to the map holding `[]` for unseen identities. -/

/-- The resolved rate-limit policy (the `rate_limit` config subtree as
read by the `.get` calls of `_check_rate_limit`). -/
structure RateConfig where
  enabled : Bool
  windowSeconds : Int
  maxRequests : Nat

/-- `_check_rate_limit` for one identity's window: returns `true` when the
call is rejected, together with the updated timestamp list. Disabled
policy admits without touching the window. Otherwise: prune entries at
distance `windowSeconds` or more from `now`; reject without recording if
the remainder has reached `maxRequests`; else record `now` and admit. -/
def check_rate_limit (cfg : RateConfig) (ts : List Int) (now : Int) : Bool × List Int :=
  if !cfg.enabled then (false, ts)
  else
    let pruned := ts.filter (fun t => now - t < cfg.windowSeconds)
    if cfg.maxRequests ≤ pruned.length then (true, pruned)
    else (false, pruned ++ [now])

/-- `_check_rate_limit` acting on the whole `self.rate_limits` map. -/
def check_rate_limit_map (cfg : RateConfig) (st : String → List Int) (uid : String)
    (now : Int) : Bool × (String → List Int) :=
  let res := check_rate_limit cfg (st uid) now
  (res.1, fun u => if u = uid then res.2 else st u)

/-- A sequence of `_check_rate_limit` calls for one identity at the given
times: the list of rejection results and the final window. -/
def run_rate_calls (cfg : RateConfig) (ts : List Int) : List Int → List Bool × List Int
  | [] => ([], ts)
  | now :: rest =>
    let res := check_rate_limit cfg ts now
    let tail := run_rate_calls cfg res.2 rest
    (res.1 :: tail.1, tail.2)

theorem run_rate_calls_all_admit (cfg : RateConfig) (hen : cfg.enabled = true) :
    ∀ (times st : List Int),
      st.length + times.length ≤ cfg.maxRequests →
      (∀ t ∈ st ++ times, ∀ now ∈ times, now - t < cfg.windowSeconds) →
      run_rate_calls cfg st times = (List.replicate times.length false, st ++ times) := by
  intro times
  induction times with
  | nil =>
    intro st _ _
    simp [run_rate_calls]
  | cons now rest ih =>
    intro st hlen hwin
    have hlen' : st.length + (rest.length + 1) ≤ cfg.maxRequests := by simpa using hlen
    have hprune : st.filter (fun t => decide (now - t < cfg.windowSeconds)) = st := by
      rw [List.filter_eq_self]
      intro t ht
      exact decide_eq_true (hwin t (List.mem_append_left _ ht) now (List.mem_cons_self _ _))
    have hcount : ¬ cfg.maxRequests ≤ st.length := by omega
    have hstep : check_rate_limit cfg st now = (false, st ++ [now]) := by
      simp [check_rate_limit, hen, hprune, hcount]
    have hrec := ih (st ++ [now])
      (by simp; omega)
      (by
        intro t ht n hn
        have ht' : t ∈ st ++ now :: rest := by
          simp only [List.mem_append, List.mem_cons, List.mem_singleton] at ht ⊢
          tauto
        exact hwin t ht' n (List.mem_cons_of_mem _ hn))
    rw [run_rate_calls]
    simp only [hstep, hrec]
    simp [List.replicate_succ]

/-- Rejection leaves the recorded window untouched when every recorded
timestamp is still inside the window: nothing is pruned and nothing is
recorded. -/
theorem check_rate_limit_reject (cfg : RateConfig) (hen : cfg.enabled = true)
    (ts : List Int) (now : Int)
    (hfull : cfg.maxRequests ≤ ts.length)
    (hwin : ∀ t ∈ ts, now - t < cfg.windowSeconds) :
    check_rate_limit cfg ts now = (true, ts) := by
  have hprune : ts.filter (fun t => decide (now - t < cfg.windowSeconds)) = ts := by
    rw [List.filter_eq_self]
    intro t ht
    exact decide_eq_true (hwin t ht)
  simp [check_rate_limit, hen, hprune, hfull]

/-- Once every recorded timestamp has aged out of the window, the next
call prunes them all and admits (provided the policy admits at least one
request). -/
theorem check_rate_limit_recover (cfg : RateConfig) (hen : cfg.enabled = true)
    (hpos : 1 ≤ cfg.maxRequests) (ts : List Int) (now : Int)
    (hold : ∀ t ∈ ts, cfg.windowSeconds ≤ now - t) :
    check_rate_limit cfg ts now = (false, [now]) := by
  have hprune : ts.filter (fun t => decide (now - t < cfg.windowSeconds)) = [] := by
    rw [List.filter_eq_nil]
    intro t ht
    simp
    exact hold t ht
  have hcnt : ¬ cfg.maxRequests ≤ ([] : List Int).length := by simp; omega
  simp [check_rate_limit, hen, hprune, hcnt]
  omega

/-- Severity taxonomy, shared by both variants (scripts/scan.py lines
29-34, src/prisma_airs_skill/scan.py lines 27-32). -/
inductive Severity where
  | SAFE
  | LOW
  | MEDIUM
  | HIGH
  | CRITICAL
deriving DecidableEq

/-- `Severity.value`, used by the guarded upgrades of `_parse_response`. -/
def Severity.value : Severity → Nat
  | .SAFE => 0
  | .LOW => 1
  | .MEDIUM => 2
  | .HIGH => 3
  | .CRITICAL => 4

/-- Action taxonomy, shared by both variants (the source class `Action`;
named `ScanAction` here because Mathlib already declares `Action`). -/
inductive ScanAction where
  | ALLOW
  | WARN
  | BLOCK
deriving DecidableEq

namespace Scripts

/-! Embedding of the HTTP variant `scripts/scan.py`. The transport is a
function from attempt index to attempt outcome; the scan functions return
the number of network attempts performed alongside the result, and an
uncaught Python exception is an `Except.error`. -/

/-- Outcome of one `requests.post` attempt: an HTTP response (status code,
reason text, decoded JSON body), an exception of the caught
`RequestException` family raised during the call, or any other raised
exception (which `_make_request` does not catch). -/
inductive AttemptOutcome where
  | resp : Nat → String → List (String × Val) → AttemptOutcome
  | exc : String → AttemptOutcome
  | raised : String → AttemptOutcome

/-- The text of the `HTTPError` that `resp.raise_for_status()` raises for
a status of 400 or above, rendered abstractly from status and reason. -/
def http_error_msg (status : Nat) (reason : String) : String :=
  toString status ++ " Error: " ++ reason

/-- `str(e)` for a failing attempt. -/
def fail_msg : AttemptOutcome → String
  | .resp status reason _ => http_error_msg status reason
  | .exc m => m
  | .raised m => m

/-- Whether an attempt fails with an exception of the caught
(`RequestException`) family: any network-level exception, and any HTTP
response with status 400 or above via `raise_for_status` — the loop makes
no further distinction among statuses. -/
def caught_failure : AttemptOutcome → Bool
  | .resp status _ _ => decide (400 ≤ status)
  | .exc _ => true
  | .raised _ => false

/-- The retry loop of `_make_request` (scripts/scan.py lines 319-336),
from attempt index `i` with `remaining` loop iterations left
(`remaining = max_attempts - i` throughout): run the attempt; on a
2xx/3xx response return its decoded body; on a caught failure retry while
`attempt < max_attempts - 1` (after a backoff sleep, irrelevant to the
result), else return the dict `{"error": str(e)}`; an uncaught exception
propagates. When the loop runs out (only possible for
`max_attempts = 0`), the fallthrough returns
`{"error": "Max retries exceeded"}`. The second component counts attempts
performed so far including this call's. -/
def make_request_loop (tr : Nat → AttemptOutcome) (maxAttempts : Nat) :
    Nat → Nat → Except String (List (String × Val)) × Nat
  | 0, i => (Except.ok [("error", Val.vstr "Max retries exceeded")], i)
  | remaining + 1, i =>
    match tr i with
    | .resp status reason body =>
      if 400 ≤ status then
        if i < maxAttempts - 1 then make_request_loop tr maxAttempts remaining (i + 1)
        else (Except.ok [("error", Val.vstr (http_error_msg status reason))], i + 1)
      else (Except.ok body, i + 1)
    | .exc m =>
      if i < maxAttempts - 1 then make_request_loop tr maxAttempts remaining (i + 1)
      else (Except.ok [("error", Val.vstr m)], i + 1)
    | .raised m => (Except.error m, i + 1)

/-- `_make_request`: the retry loop started at attempt 0 with
`max_attempts` iterations available, paired with the count of
`requests.post` invocations performed. -/
def make_request (tr : Nat → AttemptOutcome) (maxAttempts : Nat) :
    Except String (List (String × Val)) × Nat :=
  make_request_loop tr maxAttempts maxAttempts 0

/-- `ScanResult` of scripts/scan.py (lines 43-58). `scan_id` holds
whatever `result.get("tr_id", fallback)` returns, hence a `Val`. -/
structure ScanResult where
  action : ScanAction
  severity : Severity
  categories : List String
  details : List (String × Val)
  prompt_detected : Val
  response_detected : Val
  scan_id : Val
  latency_ms : Int

/-- The `prompt_detected` block of `_parse_response` (lines 366-378):
skipped outright when `result.get("prompt_detected", {})` is falsy;
attribute access on a truthy non-dict raises `AttributeError` (uncaught).
Returns the three flags and the stored `prompt_detected` value. -/
def prompt_checks (pr : Val) : Except String (Bool × Bool × Bool × Val) :=
  if truthy pr then
    match pr with
    | Val.vdict d =>
      Except.ok (flagOf d "injection_detected", flagOf d "jailbreak_detected",
        flagOf d "pii_detected", Val.vdict d)
    | Val.vint _ => Except.error "AttributeError"
    | Val.vstr _ => Except.error "AttributeError"
    | Val.vbool _ => Except.error "AttributeError"
    | Val.vlist _ => Except.error "AttributeError"
  else Except.ok (false, false, false, Val.vdict [])

/-- The `response_detected` block of `_parse_response` (lines 381-393),
with the same truthiness/attribute-access behaviour. -/
def response_checks (rr : Val) : Except String (Bool × Bool × Bool × Val) :=
  if truthy rr then
    match rr with
    | Val.vdict d =>
      Except.ok (flagOf d "dlp_detected", flagOf d "malicious_detected",
        flagOf d "pii_detected", Val.vdict d)
    | Val.vint _ => Except.error "AttributeError"
    | Val.vstr _ => Except.error "AttributeError"
    | Val.vbool _ => Except.error "AttributeError"
    | Val.vlist _ => Except.error "AttributeError"
  else Except.ok (false, false, false, Val.vdict [])

/-- The classification tail of `_parse_response` (lines 359-417) given the
six extracted detection flags, replayed in source order: each fired flag
appends its category; injection/jailbreak/data-leak set severity to
CRITICAL, the PII flags raise it to at least MEDIUM, and the malicious
flag assigns HIGH unconditionally; the action folds each category through
the configured table (block beats warn beats allow); an empty category
list becomes `["safe"]`. -/
def classify (actionCfg : String → Option String) (result : List (String × Val))
    (pInj pJb pPii rDlp rMal rPii : Bool) (pStored rStored : Val)
    (fallbackId : String) (latency : Int) : ScanResult :=
  let s1 : List String × Severity :=
    if pInj then (["prompt_injection"], Severity.CRITICAL) else ([], Severity.SAFE)
  let s2 : List String × Severity :=
    if pJb then (s1.1 ++ ["jailbreak_attempt"], Severity.CRITICAL) else s1
  let s3 : List String × Severity :=
    if pPii then (s2.1 ++ ["pii_detected"],
      if s2.2.value < Severity.MEDIUM.value then Severity.MEDIUM else s2.2) else s2
  let s4 : List String × Severity :=
    if rDlp then (s3.1 ++ ["data_leakage"], Severity.CRITICAL) else s3
  let s5 : List String × Severity :=
    if rMal then (s4.1 ++ ["malicious_content"], Severity.HIGH) else s4
  let s6 : List String × Severity :=
    if rPii then (s5.1 ++ ["pii_detected"],
      if s5.2.value < Severity.MEDIUM.value then Severity.MEDIUM else s5.2) else s5
  let action := s6.1.foldl (fun a cat =>
    let ca := (actionCfg cat).getD "warn"
    if ca = "block" ∧ a ≠ ScanAction.BLOCK then ScanAction.BLOCK
    else if ca = "warn" ∧ a = ScanAction.ALLOW then ScanAction.WARN
    else a) ScanAction.ALLOW
  let categories := if s6.1.isEmpty then ["safe"] else s6.1
  { action := action, severity := s6.2, categories := categories, details := result,
    prompt_detected := pStored, response_detected := rStored,
    scan_id := (lookupKV result "tr_id").getD (Val.vstr fallbackId), latency_ms := latency }

/-- `_parse_response` (scripts/scan.py lines 338-417): the `"error" in
result` early return, then flag extraction over both detection blocks,
then the classification tail. -/
def parse_response (actionCfg : String → Option String) (result : List (String × Val))
    (fallbackId : String) (latency : Int) : Except String ScanResult :=
  if (lookupKV result "error").isSome then
    let r : ScanResult :=
      { action := .WARN, severity := .LOW, categories := ["api_error"],
        details := result, prompt_detected := Val.vdict [], response_detected := Val.vdict [],
        scan_id := Val.vstr fallbackId, latency_ms := latency }
    Except.ok r
  else
    match prompt_checks ((lookupKV result "prompt_detected").getD (Val.vdict [])) with
    | Except.error e => Except.error e
    | Except.ok (pInj, pJb, pPii, pStored) =>
      match response_checks ((lookupKV result "response_detected").getD (Val.vdict [])) with
      | Except.error e => Except.error e
      | Except.ok (rDlp, rMal, rPii, rStored) =>
        Except.ok (classify actionCfg result pInj pJb pPii rDlp rMal rPii
          pStored rStored fallbackId latency)

/-- The per-instance state and configuration that `scan` reads: resolved
rate-limit policy and window map, clock, resolved API key, the `actions`
table, retry attempt budget, and the scan id `_generate_scan_id` would
produce (an opaque hash, taken as a parameter). -/
structure Env where
  rateCfg : RateConfig
  rlState : String → List Int
  now : Int
  api_key : String
  actionCfg : String → Option String
  maxAttempts : Nat
  genId : String

/-- `PrismaAIRS.scan` of scripts/scan.py (lines 208-269): rate-limit
rejection and missing-API-key verdicts short-circuit before any network
activity; otherwise the payload is posted through the retry loop and the
response parsed. There is no try/except here: an uncaught exception from
the transport or the parser propagates to the caller (`Except.error`).
The `Nat` component counts `requests.post` invocations. -/
def scan (env : Env) (prompt response : Option String) (userId : Option String)
    (tr : Nat → AttemptOutcome) (latency : Int) : Except String ScanResult × Nat :=
  let uid := userId.getD "unknown"
  let rl := check_rate_limit_map env.rateCfg env.rlState uid env.now
  if rl.1 then
    let r : ScanResult :=
      { action := .BLOCK, severity := .HIGH, categories := ["rate_limit_exceeded"],
        details := [("error", Val.vstr "Rate limit exceeded")],
        prompt_detected := Val.vdict [], response_detected := Val.vdict [],
        scan_id := Val.vstr env.genId, latency_ms := 0 }
    (Except.ok r, 0)
  else if env.api_key = "" then
    let r : ScanResult :=
      { action := .WARN, severity := .LOW, categories := ["configuration_error"],
        details := [("error", Val.vstr "No API key configured")],
        prompt_detected := Val.vdict [], response_detected := Val.vdict [],
        scan_id := Val.vstr env.genId, latency_ms := 0 }
    (Except.ok r, 0)
  else
    let req := make_request tr env.maxAttempts
    match req.1 with
    | Except.error m => (Except.error m, req.2)
    | Except.ok body => (parse_response env.actionCfg body env.genId latency, req.2)

end Scripts

namespace Sdk

/-! Embedding of the SDK variants (`src/prisma_airs_skill/scan.py`, and
`prisma-airs-plugin/src/prisma_airs_skill/scan.py` whose `_parse_response`
additionally threads session/transaction identifiers — the classification
logic of the two files is identical, so one embedding covers both, with
the extra identifiers defaulting to `none` for the plain variant). -/

/-- The `prompt_detected` attribute object of an SDK scan response:
`none` models a missing or `None` attribute (both falsy); each flag
attribute may itself be missing/None (`getattr(pd, _, False) or False`). -/
structure PromptDetectedObj where
  injection : Option Bool
  dlp : Option Bool
  url_cats : Option Bool

/-- The `response_detected` attribute object of an SDK scan response. -/
structure ResponseDetectedObj where
  dlp : Option Bool
  url_cats : Option Bool

/-- The SDK scan response as read by `_parse_response` through `getattr`:
every attribute may be absent or `None` (both modelled as `none`). -/
structure SdkResp where
  scan_id : Option String
  report_id : Option String
  profile_name : Option String
  category : Option String
  action : Option String
  prompt_detected : Option PromptDetectedObj
  response_detected : Option ResponseDetectedObj
  tr_id : Option String

/-- `getattr(resp, name, default) or default`: a missing/None attribute
and an empty string both collapse to the default. -/
def norm_str (x : Option String) (dflt : String) : String :=
  match x with
  | none => dflt
  | some s => if s = "" then dflt else s

/-- `ScanResult` of the SDK variants. `prompt_detected`/`response_detected`
are the flag dicts built by `_parse_response` (`none` models the empty
dict left when the response carried no such object). -/
structure ScanResult where
  action : ScanAction
  severity : Severity
  categories : List String
  scan_id : String
  report_id : String
  profile_name : String
  prompt_detected : Option (Bool × Bool × Bool)
  response_detected : Option (Bool × Bool)
  latency_ms : Int
  error : Option String
  tr_id : Option String
  session_id : Option String

/-- `_parse_response` of the SDK variants
(prisma-airs-plugin/src/prisma_airs_skill/scan.py lines 318-406;
src/prisma_airs_skill/scan.py lines 284-359 is the same function without
the `session_id`/`tr_id` parameters): normalize the top-level strings,
extract the per-surface flags, build the category list in fixed order,
then severity (CRITICAL iff top-level category "malicious" or action
"block"; else HIGH iff "suspicious"; else MEDIUM iff any flag fired),
then the action mapping, and finally let a truthy response-carried
`tr_id` override the caller-supplied one. -/
def parse_response (selfProfile : String) (resp : SdkResp) (latency : Int)
    (session_id tr_id : Option String) : ScanResult :=
  let scan_id := resp.scan_id.getD ""
  let report_id := resp.report_id.getD ""
  let profile_name := norm_str resp.profile_name selfProfile
  let category := norm_str resp.category "benign"
  let action_str := norm_str resp.action "allow"
  let pFlags := resp.prompt_detected.map (fun pd =>
    (pd.injection.getD false, pd.dlp.getD false, pd.url_cats.getD false))
  let rFlags := resp.response_detected.map (fun rd =>
    (rd.dlp.getD false, rd.url_cats.getD false))
  let pInj : Bool := match pFlags with | some f => f.1 | none => false
  let pDlp : Bool := match pFlags with | some f => f.2.1 | none => false
  let pUrl : Bool := match pFlags with | some f => f.2.2 | none => false
  let rDlp : Bool := match rFlags with | some f => f.1 | none => false
  let rUrl : Bool := match rFlags with | some f => f.2 | none => false
  let cats :=
    (if pInj then ["prompt_injection"] else []) ++
    (if pDlp then ["dlp_prompt"] else []) ++
    (if pUrl then ["url_filtering_prompt"] else []) ++
    (if rDlp then ["dlp_response"] else []) ++
    (if rUrl then ["url_filtering_response"] else [])
  let categories :=
    if cats.isEmpty then (if category = "benign" then ["safe"] else [category]) else cats
  let severity :=
    if category = "malicious" ∨ action_str = "block" then Severity.CRITICAL
    else if category = "suspicious" then Severity.HIGH
    else if pInj ∨ pDlp ∨ pUrl ∨ rDlp ∨ rUrl then Severity.MEDIUM
    else Severity.SAFE
  let action :=
    if action_str = "block" then ScanAction.BLOCK
    else if action_str = "alert" then ScanAction.WARN
    else ScanAction.ALLOW
  let tr_id' :=
    match resp.tr_id with
    | some t => if t = "" then tr_id else some t
    | none => tr_id
  { action := action, severity := severity, categories := categories,
    scan_id := scan_id, report_id := report_id, profile_name := profile_name,
    prompt_detected := pFlags, response_detected := rFlags,
    latency_ms := latency, error := none, tr_id := tr_id', session_id := session_id }

/-- Modelled from the spec: the SDK `Content` object that `scan` builds
(`Content(prompt=prompt or "", response=response or "")`) belongs to the
external `aisecurity` package, not to this repository. Per the spec's
RequestBuilder contract, building the request fails with a validation
error when both prompt and response are absent/empty; the failure is an
exception raised inside the `try` block of `scan`, before `sync_scan`. -/
def content_validate (prompt response : String) : Except String Unit :=
  if prompt = "" ∧ response = "" then
    Except.error "Must provide Prompt or Response content"
  else Except.ok ()

/-- Outcome of the single `self._scanner.sync_scan` call: a response
object, or a raised exception with its message. -/
inductive SdkOutcome where
  | ok : SdkResp → SdkOutcome
  | exc : String → SdkOutcome

/-- Per-instance state read by the SDK `scan`: the resolved profile name
and the rate limiter's policy, window map and clock. -/
structure Env where
  profile_name : String
  rateCfg : RateConfig
  rlState : String → List Int
  now : Int

/-- The WARN verdict built by the `except Exception` handler of `scan`:
every failure inside the `try` block (request building included) is
converted into this result instead of propagating. -/
def api_error_result (profile : String) (latency : Int) (msg : String) : ScanResult :=
  { action := .WARN, severity := .LOW, categories := ["api_error"],
    scan_id := "", report_id := "", profile_name := profile,
    prompt_detected := none, response_detected := none,
    latency_ms := latency, error := some msg, tr_id := none, session_id := none }

/-- `PrismaAIRS.scan` of the SDK variants
(prisma-airs-plugin/src/prisma_airs_skill/scan.py lines 219-316;
src/prisma_airs_skill/scan.py lines 214-282 is the same without the
identifier/metadata parameters): rate-limit rejection short-circuits;
otherwise everything — `Content` construction, the `sync_scan` transport
call, parsing and logging — runs inside `try`, and any exception becomes
the WARN `api_error` verdict. The `Nat` component counts `sync_scan`
invocations. -/
def scan (env : Env) (prompt response : Option String) (userId : Option String)
    (session_id tr_id : Option String) (outcome : SdkOutcome) (latency : Int) :
    ScanResult × Nat :=
  let uid := userId.getD "unknown"
  let rl := check_rate_limit_map env.rateCfg env.rlState uid env.now
  if rl.1 then
    let r : ScanResult :=
      { action := .BLOCK, severity := .HIGH, categories := ["rate_limit_exceeded"],
        scan_id := "", report_id := "", profile_name := env.profile_name,
        prompt_detected := none, response_detected := none,
        latency_ms := 0, error := some "Rate limit exceeded", tr_id := none,
        session_id := none }
    (r, 0)
  else
    match content_validate (prompt.getD "") (response.getD "") with
    | Except.error m => (api_error_result env.profile_name latency m, 0)
    | Except.ok _ =>
      match outcome with
      | SdkOutcome.exc m => (api_error_result env.profile_name latency m, 1)
      | SdkOutcome.ok resp => (parse_response env.profile_name resp latency session_id tr_id, 1)

end Sdk

/-! ### Helper lemmas about the scripts retry loop -/

theorem make_request_loop_all_fail (tr : Nat → Scripts.AttemptOutcome) (maxA : Nat)
    (hfail : ∀ j, Scripts.caught_failure (tr j) = true) :
    ∀ (remaining i : Nat), remaining + i = maxA → i < maxA →
      Scripts.make_request_loop tr maxA remaining i =
        (Except.ok [("error", Val.vstr (Scripts.fail_msg (tr (maxA - 1))))], maxA) := by
  intro remaining
  induction remaining with
  | zero =>
    intro i h hi
    omega
  | succ rem ih =>
    intro i h hi
    rw [Scripts.make_request_loop]
    cases htr : tr i with
    | raised m =>
      have hc := hfail i
      rw [htr] at hc
      simp [Scripts.caught_failure] at hc
    | exc m =>
      simp only
      by_cases hlast : i < maxA - 1
      · rw [if_pos hlast]
        exact ih (i + 1) (by omega) (by omega)
      · rw [if_neg hlast]
        have h1 : maxA - 1 = i := by omega
        have h2 : i + 1 = maxA := by omega
        rw [h1, htr, h2]
        rfl
    | resp status reason body =>
      have hc := hfail i
      rw [htr] at hc
      simp [Scripts.caught_failure] at hc
      simp only [if_pos hc]
      by_cases hlast : i < maxA - 1
      · rw [if_pos hlast]
        exact ih (i + 1) (by omega) (by omega)
      · rw [if_neg hlast]
        have h1 : maxA - 1 = i := by omega
        have h2 : i + 1 = maxA := by omega
        rw [h1, htr, h2]
        rfl

theorem make_request_all_fail (tr : Nat → Scripts.AttemptOutcome) (maxA : Nat)
    (hpos : 1 ≤ maxA) (hfail : ∀ j, Scripts.caught_failure (tr j) = true) :
    Scripts.make_request tr maxA =
      (Except.ok [("error", Val.vstr (Scripts.fail_msg (tr (maxA - 1))))], maxA) :=
  make_request_loop_all_fail tr maxA hfail maxA 0 (by omega) (by omega)

theorem parse_response_error_key (actionCfg : String → Option String) (m : String)
    (fid : String) (lat : Int) :
    Scripts.parse_response actionCfg [("error", Val.vstr m)] fid lat =
      Except.ok { action := .WARN, severity := .LOW, categories := ["api_error"],
                  details := [("error", Val.vstr m)], prompt_detected := Val.vdict [],
                  response_detected := Val.vdict [], scan_id := Val.vstr fid,
                  latency_ms := lat } := by
  simp [Scripts.parse_response, lookupKV]

/-- Claim C4: with `max_attempts ≥ 1`, a transport failing on every
attempt (with a caught, `RequestException`-class failure) causes exactly
`max_attempts` network attempts, and `scan` then returns a WARN verdict
with categories `["api_error"]` whose details carry the last observed
failure reason under the `"error"` key. -/
theorem scan_exhausted_retries_warn_verdict
    (env : Scripts.Env) (prompt response userId : Option String)
    (tr : Nat → Scripts.AttemptOutcome) (latency : Int)
    (hnl : (check_rate_limit_map env.rateCfg env.rlState (userId.getD "unknown") env.now).1 = false)
    (hkey : ¬ env.api_key = "")
    (hpos : 1 ≤ env.maxAttempts)
    (hfail : ∀ j, Scripts.caught_failure (tr j) = true) :
    (Scripts.scan env prompt response userId tr latency).2 = env.maxAttempts ∧
    ∃ v, (Scripts.scan env prompt response userId tr latency).1 = Except.ok v ∧
      v.action = ScanAction.WARN ∧ v.categories = ["api_error"] ∧
      lookupKV v.details "error" =
        some (Val.vstr (Scripts.fail_msg (tr (env.maxAttempts - 1)))) := by
  have hmr := make_request_all_fail tr env.maxAttempts hpos hfail
  have hparse := parse_response_error_key env.actionCfg
    (Scripts.fail_msg (tr (env.maxAttempts - 1))) env.genId latency
  simp only [Scripts.scan, hnl, Bool.false_eq_true, if_false, if_neg hkey, hmr, hparse]
  refine ⟨trivial, ⟨_, rfl, rfl, rfl, ?_⟩⟩
  simp [lookupKV]

/-- A concrete engine environment used by the witness theorems: default
rate limit (enabled, 100 requests / 60 s), empty windows, a configured
API key, empty actions table, the default 3 retry attempts. -/
def testEnv : Scripts.Env :=
  { rateCfg := { enabled := true, windowSeconds := 60, maxRequests := 100 },
    rlState := fun _ => [], now := 0, api_key := "test-key",
    actionCfg := fun _ => none, maxAttempts := 3, genId := "scan-id" }

theorem scan_exhausted_retries_warn_verdict_witness :
    (Scripts.scan testEnv none none none
        (fun _ => Scripts.AttemptOutcome.exc "boom") 7).2 = 3 ∧
    ∃ v, (Scripts.scan testEnv none none none
        (fun _ => Scripts.AttemptOutcome.exc "boom") 7).1 = Except.ok v ∧
      v.action = ScanAction.WARN ∧ v.categories = ["api_error"] ∧
      lookupKV v.details "error" = some (Val.vstr "boom") :=
  scan_exhausted_retries_warn_verdict testEnv none none none
    (fun _ => Scripts.AttemptOutcome.exc "boom") 7 rfl (by decide) (by decide) (fun _ => rfl)

/-- Claim C3 counterexample: under the default retry configuration
(`max_attempts = 3`), a request whose every attempt fails with a
401-equivalent authorization response performs 3 network attempts, not
exactly one — `_make_request` catches the `HTTPError` from
`raise_for_status` like any other `RequestException` and retries it. -/
theorem retry_on_401_counterexample :
    (Scripts.make_request (fun _ => Scripts.AttemptOutcome.resp 401 "Unauthorized" []) 3).2 = 3 ∧
    ¬ (Scripts.make_request (fun _ => Scripts.AttemptOutcome.resp 401 "Unauthorized" []) 3).2 = 1 := by
  constructor
  · rfl
  · decide

/-- Claim C3 amended: the retry loop makes no distinction for 4xx-class
authorization failures: a 401 response raises a caught `HTTPError` on
every attempt and is retried like any other failure, so such a request
performs exactly `max_attempts` network attempts (a single attempt only
when `max_attempts = 1`). -/
theorem retry_on_auth_failure_all_attempts (maxA : Nat) (hpos : 1 ≤ maxA)
    (reasons : Nat → String) (bodies : Nat → List (String × Val)) :
    (Scripts.make_request
        (fun i => Scripts.AttemptOutcome.resp 401 (reasons i) (bodies i)) maxA).2 = maxA := by
  have hmr := make_request_all_fail
    (fun i => Scripts.AttemptOutcome.resp 401 (reasons i) (bodies i)) maxA hpos
    (fun j => by simp [Scripts.caught_failure])
  rw [hmr]

theorem retry_on_auth_failure_all_attempts_witness :
    (Scripts.make_request
        (fun i => Scripts.AttemptOutcome.resp 401 ((fun _ => "Unauthorized") i)
          ((fun _ => ([] : List (String × Val))) i)) 5).2 = 5 :=
  retry_on_auth_failure_all_attempts 5 (by decide) (fun _ => "Unauthorized") (fun _ => [])

/-- A sequence of `_check_rate_limit` calls for one identity acting on
the whole `self.rate_limits` map. -/
def run_rate_calls_map (cfg : RateConfig) (st : String → List Int) (uid : String) :
    List Int → List Bool × (String → List Int)
  | [] => ([], st)
  | now :: rest =>
    let res := check_rate_limit_map cfg st uid now
    let tail := run_rate_calls_map cfg res.2 uid rest
    (res.1 :: tail.1, tail.2)

theorem run_rate_calls_map_spec (cfg : RateConfig) (uid : String) :
    ∀ (times : List Int) (st : String → List Int),
      run_rate_calls_map cfg st uid times =
        ((run_rate_calls cfg (st uid) times).1,
         fun u => if u = uid then (run_rate_calls cfg (st uid) times).2 else st u) := by
  intro times
  induction times with
  | nil =>
    intro st
    simp only [run_rate_calls_map, run_rate_calls]
    refine Prod.ext rfl ?_
    funext u
    by_cases h : u = uid
    · subst h; simp
    · simp [h]
  | cons now rest ih =>
    intro st
    simp only [run_rate_calls_map, run_rate_calls, check_rate_limit_map]
    rw [ih]
    refine Prod.ext ?_ ?_
    · simp
    · funext u
      by_cases h : u = uid
      · subst h; simp
      · simp [h]

/-- Claim C5: for every identity and enabled rate-limit policy admitting
at least one request, starting from an empty window: `max_requests`
admission calls inside one window all succeed and are all recorded; the
next call still inside the window is rejected and records no timestamp
(the window map is left exactly as it was); and once every recorded
timestamp has aged past the window, the next admission succeeds again. -/
theorem rate_limit_window_property
    (cfg : RateConfig) (uid : String) (st0 : String → List Int)
    (times : List Int) (tRej tRec : Int)
    (hen : cfg.enabled = true)
    (hpos : 1 ≤ cfg.maxRequests)
    (hempty : st0 uid = [])
    (hcount : times.length = cfg.maxRequests)
    (hwin : ∀ t ∈ times, ∀ now ∈ times, now - t < cfg.windowSeconds)
    (hrejwin : ∀ t ∈ times, tRej - t < cfg.windowSeconds)
    (hrecold : ∀ t ∈ times, cfg.windowSeconds ≤ tRec - t) :
    (run_rate_calls_map cfg st0 uid times).1 = List.replicate cfg.maxRequests false ∧
    (run_rate_calls_map cfg st0 uid times).2 uid = times ∧
    (check_rate_limit_map cfg (run_rate_calls_map cfg st0 uid times).2 uid tRej).1 = true ∧
    (check_rate_limit_map cfg (run_rate_calls_map cfg st0 uid times).2 uid tRej).2 uid = times ∧
    (check_rate_limit_map cfg
        (check_rate_limit_map cfg (run_rate_calls_map cfg st0 uid times).2 uid tRej).2
        uid tRec).1 = false := by
  have hadm := run_rate_calls_all_admit cfg hen times []
    (by simp [hcount])
    (by
      intro t ht n hn
      simp only [List.nil_append] at ht
      exact hwin t ht n hn)
  have hmap := run_rate_calls_map_spec cfg uid times st0
  rw [hempty] at hmap
  rw [hadm] at hmap
  simp only [List.nil_append] at hmap
  have hstate : (run_rate_calls_map cfg st0 uid times).2 uid = times := by
    rw [hmap]; simp
  have hresults : (run_rate_calls_map cfg st0 uid times).1 = List.replicate cfg.maxRequests false := by
    rw [hmap]; simp [hcount]
  have hrej := check_rate_limit_reject cfg hen times tRej (by omega) hrejwin
  have hrejmap : check_rate_limit_map cfg (run_rate_calls_map cfg st0 uid times).2 uid tRej =
      ((true : Bool), fun u => if u = uid then times else (run_rate_calls_map cfg st0 uid times).2 u) := by
    simp only [check_rate_limit_map, hstate, hrej]
  have hrec := check_rate_limit_recover cfg hen hpos times tRec hrecold
  refine ⟨hresults, hstate, ?_, ?_, ?_⟩
  · rw [hrejmap]
  · rw [hrejmap]; simp
  · rw [hrejmap]
    simp only [check_rate_limit_map]
    simp [hrec]

theorem rate_limit_window_property_witness :
    (run_rate_calls_map ⟨true, 60, 3⟩ (fun _ => []) "alice" [0, 1, 2]).1 =
      List.replicate 3 false ∧
    (run_rate_calls_map ⟨true, 60, 3⟩ (fun _ => []) "alice" [0, 1, 2]).2 "alice" = [0, 1, 2] ∧
    (check_rate_limit_map ⟨true, 60, 3⟩
        (run_rate_calls_map ⟨true, 60, 3⟩ (fun _ => []) "alice" [0, 1, 2]).2 "alice" 2).1 = true ∧
    (check_rate_limit_map ⟨true, 60, 3⟩
        (run_rate_calls_map ⟨true, 60, 3⟩ (fun _ => []) "alice" [0, 1, 2]).2 "alice" 2).2 "alice" =
      [0, 1, 2] ∧
    (check_rate_limit_map ⟨true, 60, 3⟩
        (check_rate_limit_map ⟨true, 60, 3⟩
          (run_rate_calls_map ⟨true, 60, 3⟩ (fun _ => []) "alice" [0, 1, 2]).2 "alice" 2).2
        "alice" 62).1 = false :=
  rate_limit_window_property ⟨true, 60, 3⟩ "alice" (fun _ => []) [0, 1, 2] 2 62
    rfl (by decide) rfl rfl (by decide) (by decide) (by decide)

/-- Claim C9: `_deep_merge` is right-biased at every leaf — for every key
the merged dict holds the override value, except that two dict values
under the same key merge recursively (characterized through `mergedAt`
for dicts whose override keys are duplicate-free, as Python dicts are) —
and on the spec's example, `merge({a:{x:1,y:2}}, {a:{y:9,z:3}})`
= `{a:{x:1,y:9,z:3}}`. -/
theorem deep_merge_right_biased :
    (∀ (b o : List (String × Val)) (k : String), (keysKV o).Nodup →
      lookupKV (deep_merge b o) k = mergedAt (lookupKV b k) (lookupKV o k)) ∧
    deep_merge [("a", Val.vdict [("x", Val.vint 1), ("y", Val.vint 2)])]
        [("a", Val.vdict [("y", Val.vint 9), ("z", Val.vint 3)])] =
      [("a", Val.vdict [("x", Val.vint 1), ("y", Val.vint 9), ("z", Val.vint 3)])] := by
  constructor
  · intro b o k h
    exact deep_merge_lookup o b k h
  · simp [deep_merge, deep_merge_set, deep_merge_val, setKV, lookupKV]

theorem deep_merge_right_biased_witness :
    lookupKV (deep_merge [("k", Val.vint 1), ("j", Val.vint 5)] [("k", Val.vint 2)]) "k" =
      mergedAt (lookupKV [("k", Val.vint 1), ("j", Val.vint 5)] "k")
        (lookupKV [("k", Val.vint 2)] "k") :=
  deep_merge_right_biased.1 [("k", Val.vint 1), ("j", Val.vint 5)] [("k", Val.vint 2)] "k"
    (by simp [keysKV])

/-- Claim C10: a returning run of `_deep_merge` over the heap leaves
every pre-existing object — in particular `base`, `override`, and
everything they reference — exactly as it was, and builds its result in a
freshly allocated dict (an address that did not exist before the call and
is distinct from both arguments). -/
theorem deep_merge_frame_property
    (fuel aB aO : Nat) (h : Heap) (r : Nat) (h' : Heap)
    (hrun : deep_merge_heap fuel aB aO h = some (r, h')) :
    (∀ i, i < h.length → h'[i]? = h[i]?) ∧ h[r]? = none ∧ r ≠ aB ∧ r ≠ aO := by
  have hvalid : aB < h.length ∧ aO < h.length := by
    cases fuel with
    | zero => simp [deep_merge_heap] at hrun
    | succ f =>
      rw [deep_merge_heap] at hrun
      cases hB : h[aB]? with
      | none => rw [hB] at hrun; simp at hrun
      | some dB =>
        cases hO : h[aO]? with
        | none => rw [hB, hO] at hrun; simp at hrun
        | some dO =>
          constructor
          · exact (List.getElem?_eq_some.mp hB).1
          · exact (List.getElem?_eq_some.mp hO).1
  obtain ⟨hr, hlen, hframe⟩ := (deep_merge_heap_frame fuel).1 aB aO h r h' hrun
  refine ⟨hframe, ?_, ?_, ?_⟩
  · subst hr
    exact List.getElem?_eq_none (le_refl _)
  · omega
  · omega

theorem deep_merge_frame_property_witness :
    deep_merge_heap 3 0 1 [[("x", HVal.hint 1)], [("y", HVal.hint 2)]] =
      some (2, [[("x", HVal.hint 1)], [("y", HVal.hint 2)],
                [("x", HVal.hint 1), ("y", HVal.hint 2)]]) ∧
    ((∀ i, i < 2 →
        ([[("x", HVal.hint 1)], [("y", HVal.hint 2)],
          [("x", HVal.hint 1), ("y", HVal.hint 2)]] : Heap)[i]? =
        ([[("x", HVal.hint 1)], [("y", HVal.hint 2)]] : Heap)[i]?) ∧
      ([[("x", HVal.hint 1)], [("y", HVal.hint 2)]] : Heap)[2]? = none ∧
      2 ≠ 0 ∧ 2 ≠ 1) :=
  ⟨rfl, deep_merge_frame_property 3 0 1 [[("x", HVal.hint 1)], [("y", HVal.hint 2)]] 2
    [[("x", HVal.hint 1)], [("y", HVal.hint 2)], [("x", HVal.hint 1), ("y", HVal.hint 2)]] rfl⟩

/-- Claim C8: when the SDK response carries its own (truthy) transaction
identifier, it replaces the caller-supplied one in the returned verdict;
when it carries none, the caller-supplied identifier is echoed back
unchanged. -/
theorem tr_id_remote_overrides (profile : String) (resp : Sdk.SdkResp) (lat : Int)
    (sid tid : Option String) :
    (∀ t, resp.tr_id = some t → t ≠ "" →
      (Sdk.parse_response profile resp lat sid tid).tr_id = some t) ∧
    (resp.tr_id = none →
      (Sdk.parse_response profile resp lat sid tid).tr_id = tid) := by
  constructor
  · intro t ht hne
    simp [Sdk.parse_response, ht, hne]
  · intro ht
    simp [Sdk.parse_response, ht]

theorem tr_id_remote_overrides_witness :
    ({ scan_id := none, report_id := none, profile_name := none, category := none,
       action := none, prompt_detected := none, response_detected := none,
       tr_id := some "remote-tr" } : Sdk.SdkResp).tr_id = some "remote-tr" ∧
    (Sdk.parse_response "p"
      { scan_id := none, report_id := none, profile_name := none, category := none,
        action := none, prompt_detected := none, response_detected := none,
        tr_id := some "remote-tr" } 0 none (some "caller-tr")).tr_id = some "remote-tr" ∧
    (Sdk.parse_response "p"
      { scan_id := none, report_id := none, profile_name := none, category := none,
        action := none, prompt_detected := none, response_detected := none,
        tr_id := none } 0 none (some "caller-tr")).tr_id = some "caller-tr" :=
  ⟨rfl,
   (tr_id_remote_overrides "p"
     { scan_id := none, report_id := none, profile_name := none, category := none,
       action := none, prompt_detected := none, response_detected := none,
       tr_id := some "remote-tr" } 0 none (some "caller-tr")).1 "remote-tr" rfl (by decide),
   (tr_id_remote_overrides "p"
     { scan_id := none, report_id := none, profile_name := none, category := none,
       action := none, prompt_detected := none, response_detected := none,
       tr_id := none } 0 none (some "caller-tr")).2 rfl⟩

/-! ### The prompt-injection classification (claim C1) -/

/-- The `malicious_detected` response flag as `_parse_response` of the
scripts variant reads it: `false` when the `response_detected` field is
absent or falsy or not a dict, else the truthiness of its
`malicious_detected` entry. -/
def response_malicious_flag (result : List (String × Val)) : Bool :=
  match (lookupKV result "response_detected").getD (Val.vdict []) with
  | Val.vdict d => if d.isEmpty then false else flagOf d "malicious_detected"
  | Val.vint _ => false
  | Val.vstr _ => false
  | Val.vbool _ => false
  | Val.vlist _ => false

theorem response_checks_malicious (result : List (String × Val)) (a b c : Bool) (s : Val)
    (h : Scripts.response_checks ((lookupKV result "response_detected").getD (Val.vdict []))
      = Except.ok (a, b, c, s)) :
    b = response_malicious_flag result := by
  cases hv : (lookupKV result "response_detected").getD (Val.vdict []) with
  | vdict d =>
    rw [hv, Scripts.response_checks] at h
    have hrmf : response_malicious_flag result =
        (if d.isEmpty = true then false else flagOf d "malicious_detected") := by
      simp only [response_malicious_flag, hv]
    rw [hrmf]
    by_cases hd : truthy (Val.vdict d) = true
    · rw [if_pos hd] at h
      simp only [Except.ok.injEq, Prod.mk.injEq] at h
      have hempty : d.isEmpty = false := by simpa [truthy] using hd
      rw [hempty]
      simp [← h.2.1]
    · rw [if_neg hd] at h
      simp only [Except.ok.injEq, Prod.mk.injEq] at h
      have hempty : d.isEmpty = true := by simpa [truthy] using hd
      rw [hempty]
      simp [← h.2.1]
  | vint n =>
    rw [hv, Scripts.response_checks] at h
    have hrmf : response_malicious_flag result = false := by
      simp only [response_malicious_flag, hv]
    rw [hrmf]
    by_cases hd : truthy (Val.vint n) = true
    · rw [if_pos hd] at h
      simp at h
    · rw [if_neg hd] at h
      simp only [Except.ok.injEq, Prod.mk.injEq] at h
      exact h.2.1.symm
  | vstr str =>
    rw [hv, Scripts.response_checks] at h
    have hrmf : response_malicious_flag result = false := by
      simp only [response_malicious_flag, hv]
    rw [hrmf]
    by_cases hd : truthy (Val.vstr str) = true
    · rw [if_pos hd] at h
      simp at h
    · rw [if_neg hd] at h
      simp only [Except.ok.injEq, Prod.mk.injEq] at h
      exact h.2.1.symm
  | vbool bb =>
    rw [hv, Scripts.response_checks] at h
    have hrmf : response_malicious_flag result = false := by
      simp only [response_malicious_flag, hv]
    rw [hrmf]
    by_cases hd : truthy (Val.vbool bb) = true
    · rw [if_pos hd] at h
      simp at h
    · rw [if_neg hd] at h
      simp only [Except.ok.injEq, Prod.mk.injEq] at h
      exact h.2.1.symm
  | vlist l =>
    rw [hv, Scripts.response_checks] at h
    have hrmf : response_malicious_flag result = false := by
      simp only [response_malicious_flag, hv]
    rw [hrmf]
    by_cases hd : truthy (Val.vlist l) = true
    · rw [if_pos hd] at h
      simp at h
    · rw [if_neg hd] at h
      simp only [Except.ok.injEq, Prod.mk.injEq] at h
      exact h.2.1.symm

theorem classify_injection_severity (cfg : String → Option String)
    (result : List (String × Val)) (pJb pPii rDlp rMal rPii : Bool) (pS rS : Val)
    (fid : String) (lat : Int) :
    "prompt_injection" ∈
      (Scripts.classify cfg result true pJb pPii rDlp rMal rPii pS rS fid lat).categories ∧
    (Scripts.classify cfg result true pJb pPii rDlp rMal rPii pS rS fid lat).severity =
      (if rMal then Severity.HIGH else Severity.CRITICAL) := by
  cases pJb <;> cases pPii <;> cases rDlp <;> cases rMal <;> cases rPii <;>
    simp [Scripts.classify, Severity.value]

/-- An SDK response whose prompt-injection flag is true but whose
top-level category/action strings are benign/allow. -/
def benignInjectionResp : Sdk.SdkResp :=
  { scan_id := some "s1", report_id := some "r1", profile_name := some "default",
    category := some "benign", action := some "allow",
    prompt_detected := some { injection := some true, dlp := some false, url_cats := some false },
    response_detected := none, tr_id := none }

/-- Claim C1 counterexample: with the prompt-injection flag true, the SDK
variants still classify severity from the top-level strings — a benign
category and allow action give MEDIUM, not CRITICAL (though the
`prompt_injection` category is present); and in the scripts variant the
`malicious_detected` flag unconditionally overwrites severity to HIGH
even after injection set it to CRITICAL. -/
theorem injection_critical_counterexample :
    "prompt_injection" ∈ (Sdk.parse_response "default" benignInjectionResp 0 none none).categories ∧
    (Sdk.parse_response "default" benignInjectionResp 0 none none).severity = Severity.MEDIUM ∧
    ¬ (Sdk.parse_response "default" benignInjectionResp 0 none none).severity = Severity.CRITICAL ∧
    (Scripts.parse_response (fun _ => none)
        [("prompt_detected", Val.vdict [("injection_detected", Val.vbool true)]),
         ("response_detected", Val.vdict [("malicious_detected", Val.vbool true)])]
        "id" 0).map Scripts.ScanResult.severity = Except.ok Severity.HIGH := by
  refine ⟨?_, rfl, by decide, rfl⟩
  decide

/-- Claim C1 amended: whenever the prompt-injection flag is true,
`"prompt_injection"` is in the verdict's categories in every variant; as
for severity: the SDK variants yield CRITICAL exactly when the top-level
category is "malicious" or the top-level action is "block", HIGH when the
category is "suspicious", and MEDIUM otherwise; the scripts variant
yields CRITICAL unless the response-side `malicious_detected` flag also
fired, in which case its unconditional severity assignment leaves HIGH. -/
theorem injection_classification_amended :
    (∀ (profile : String) (resp : Sdk.SdkResp) (lat : Int) (sid tid : Option String)
        (pd : Sdk.PromptDetectedObj),
      resp.prompt_detected = some pd →
      pd.injection.getD false = true →
      ("prompt_injection" ∈ (Sdk.parse_response profile resp lat sid tid).categories ∧
       (Sdk.parse_response profile resp lat sid tid).severity =
         (if Sdk.norm_str resp.category "benign" = "malicious"
             ∨ Sdk.norm_str resp.action "allow" = "block" then Severity.CRITICAL
          else if Sdk.norm_str resp.category "benign" = "suspicious" then Severity.HIGH
          else Severity.MEDIUM))) ∧
    (∀ (cfg : String → Option String) (result : List (String × Val)) (fid : String)
        (lat : Int) (v : Scripts.ScanResult) (d : List (String × Val)),
      Scripts.parse_response cfg result fid lat = Except.ok v →
      lookupKV result "error" = none →
      (lookupKV result "prompt_detected").getD (Val.vdict []) = Val.vdict d →
      flagOf d "injection_detected" = true →
      ("prompt_injection" ∈ v.categories ∧
       v.severity = (if response_malicious_flag result then Severity.HIGH
                     else Severity.CRITICAL))) := by
  constructor
  · intro profile resp lat sid tid pd hpd hinj
    constructor
    · simp [Sdk.parse_response, hpd, hinj]
    · simp [Sdk.parse_response, hpd, hinj]
  · intro cfg result fid lat v d hok herr hpdl hflag
    have htruthy : truthy (Val.vdict d) = true := by
      cases d with
      | nil => rw [flagOf] at hflag; simp [lookupKV] at hflag
      | cons hd tl => rfl
    rw [Scripts.parse_response] at hok
    rw [herr] at hok
    simp only [Option.isSome_none, Bool.false_eq_true, if_false] at hok
    rw [hpdl, Scripts.prompt_checks, if_pos htruthy] at hok
    simp only at hok
    cases hrc : Scripts.response_checks ((lookupKV result "response_detected").getD (Val.vdict [])) with
    | error e =>
      rw [hrc] at hok
      simp at hok
    | ok quad =>
      obtain ⟨rDlp, rMal, rPii, rS⟩ := quad
      rw [hrc] at hok
      simp only [Except.ok.injEq] at hok
      have hb : rMal = response_malicious_flag result :=
        response_checks_malicious result rDlp rMal rPii rS hrc
      rw [← hok, hflag, ← hb]
      exact classify_injection_severity cfg result (flagOf d "jailbreak_detected")
        (flagOf d "pii_detected") rDlp rMal rPii (Val.vdict d) rS fid lat

theorem injection_classification_amended_witness :
    ("prompt_injection" ∈ (Sdk.parse_response "default" benignInjectionResp 0 none none).categories ∧
     (Sdk.parse_response "default" benignInjectionResp 0 none none).severity = Severity.MEDIUM) ∧
    ∃ v, Scripts.parse_response (fun _ => none)
        [("prompt_detected", Val.vdict [("injection_detected", Val.vbool true)])] "id" 0 =
          Except.ok v ∧
      "prompt_injection" ∈ v.categories ∧ v.severity = Severity.CRITICAL := by
  refine ⟨injection_classification_amended.1 "default" benignInjectionResp 0 none none
    { injection := some true, dlp := some false, url_cats := some false } rfl rfl, ?_⟩
  have h := injection_classification_amended.2 (fun _ => none)
    [("prompt_detected", Val.vdict [("injection_detected", Val.vbool true)])] "id" 0 _
    [("injection_detected", Val.vbool true)] rfl rfl rfl rfl
  exact ⟨_, rfl, h.1, h.2⟩

/-! ### Validation of empty scans (claim C2) -/

theorem make_request_loop_counter_ge (tr : Nat → Scripts.AttemptOutcome) (maxA : Nat) :
    ∀ (remaining i : Nat), i ≤ (Scripts.make_request_loop tr maxA remaining i).2 := by
  intro remaining
  induction remaining with
  | zero =>
    intro i
    simp [Scripts.make_request_loop]
  | succ rem ih =>
    intro i
    rw [Scripts.make_request_loop]
    cases tr i with
    | resp status reason body =>
      simp only
      split
      · split
        · have := ih (i + 1)
          omega
        · simp
      · simp
    | exc m =>
      simp only
      split
      · have := ih (i + 1)
        omega
      · simp
    | raised m =>
      simp

theorem make_request_attempts_pos (tr : Nat → Scripts.AttemptOutcome) (maxA : Nat)
    (hpos : 1 ≤ maxA) : 1 ≤ (Scripts.make_request tr maxA).2 := by
  rw [Scripts.make_request]
  cases maxA with
  | zero => omega
  | succ m =>
    rw [Scripts.make_request_loop]
    cases tr 0 with
    | resp status reason body =>
      simp only
      split
      · split
        · have hge := make_request_loop_counter_ge tr (m + 1) m 1
          simpa using hge
        · simp
      · simp
    | exc msg =>
      simp only
      split
      · have hge := make_request_loop_counter_ge tr (m + 1) m 1
        simpa using hge
      · simp
    | raised msg =>
      simp

/-- Claim C2 counterexample: in the scripts variant, `scan(prompt=None,
response=None)` performs no validation at all — with a configured API key
and no rate limiting in the way, a network attempt is made (here exactly
one, the transport answering 200 immediately), not zero. -/
theorem scan_none_none_counterexample :
    (Scripts.scan testEnv none none none
        (fun _ => Scripts.AttemptOutcome.resp 200 "OK" []) 0).2 = 1 ∧
    ¬ (Scripts.scan testEnv none none none
        (fun _ => Scripts.AttemptOutcome.resp 200 "OK" []) 0).2 = 0 := by
  constructor
  · rfl
  · decide

/-- Claim C2 amended: in the SDK variants, `scan(None, None)` fails the
SDK `Content` validation before the transport is reached — zero
`sync_scan` invocations — but the resulting validation exception is
caught by `scan` and returned as a WARN `api_error` verdict rather than
raised; in the scripts variant there is no validation and at least one
network attempt is performed. -/
theorem scan_none_none_validation :
    (∀ (env : Sdk.Env) (userId sid tid : Option String) (outcome : Sdk.SdkOutcome) (lat : Int),
      (check_rate_limit_map env.rateCfg env.rlState (userId.getD "unknown") env.now).1 = false →
      Sdk.scan env none none userId sid tid outcome lat =
        (Sdk.api_error_result env.profile_name lat "Must provide Prompt or Response content", 0)) ∧
    (∀ (env : Scripts.Env) (userId : Option String) (tr : Nat → Scripts.AttemptOutcome) (lat : Int),
      (check_rate_limit_map env.rateCfg env.rlState (userId.getD "unknown") env.now).1 = false →
      ¬ env.api_key = "" → 1 ≤ env.maxAttempts →
      1 ≤ (Scripts.scan env none none userId tr lat).2) := by
  constructor
  · intro env userId sid tid outcome lat hnl
    simp [Sdk.scan, hnl, Sdk.content_validate]
  · intro env userId tr lat hnl hkey hpos
    simp only [Scripts.scan, hnl, Bool.false_eq_true, if_false, if_neg hkey]
    cases hmr : (Scripts.make_request tr env.maxAttempts).1 with
    | error m =>
      exact make_request_attempts_pos tr env.maxAttempts hpos
    | ok body =>
      exact make_request_attempts_pos tr env.maxAttempts hpos

theorem scan_none_none_validation_witness :
    (Sdk.scan
        { profile_name := "default", rateCfg := { enabled := true, windowSeconds := 60, maxRequests := 100 },
          rlState := fun _ => [], now := 0 }
        none none none none none (Sdk.SdkOutcome.exc "unreached") 4 =
      (Sdk.api_error_result "default" 4 "Must provide Prompt or Response content", 0)) ∧
    1 ≤ (Scripts.scan testEnv none none none
        (fun _ => Scripts.AttemptOutcome.resp 200 "OK" []) 0).2 :=
  ⟨scan_none_none_validation.1
      { profile_name := "default", rateCfg := { enabled := true, windowSeconds := 60, maxRequests := 100 },
        rlState := fun _ => [], now := 0 } none none none (Sdk.SdkOutcome.exc "unreached") 4 rfl,
   scan_none_none_validation.2 testEnv none
      (fun _ => Scripts.AttemptOutcome.resp 200 "OK" []) 0 rfl (by decide) (by decide)⟩

/-! ### Exception propagation across the scan boundary (claim C6) -/

/-- A detection field is harmless for the parser when the value read for
it is falsy (block skipped) or a dict (attribute access succeeds). -/
def detection_field_ok (result : List (String × Val)) (key : String) : Prop :=
  truthy ((lookupKV result key).getD (Val.vdict [])) = false ∨
  ∃ d, (lookupKV result key).getD (Val.vdict []) = Val.vdict d

theorem prompt_checks_ok_of_field (v : Val)
    (h : truthy v = false ∨ ∃ d, v = Val.vdict d) :
    ∃ q, Scripts.prompt_checks v = Except.ok q := by
  rcases h with h | ⟨d, rfl⟩
  · rw [Scripts.prompt_checks.eq_def, if_neg (by simp [h])]
    exact ⟨_, rfl⟩
  · rw [Scripts.prompt_checks]
    by_cases hd : truthy (Val.vdict d) = true
    · rw [if_pos hd]
      exact ⟨_, rfl⟩
    · rw [if_neg hd]
      exact ⟨_, rfl⟩

theorem response_checks_ok_of_field (v : Val)
    (h : truthy v = false ∨ ∃ d, v = Val.vdict d) :
    ∃ q, Scripts.response_checks v = Except.ok q := by
  rcases h with h | ⟨d, rfl⟩
  · rw [Scripts.response_checks.eq_def, if_neg (by simp [h])]
    exact ⟨_, rfl⟩
  · rw [Scripts.response_checks]
    by_cases hd : truthy (Val.vdict d) = true
    · rw [if_pos hd]
      exact ⟨_, rfl⟩
    · rw [if_neg hd]
      exact ⟨_, rfl⟩

theorem parse_response_ok_of_wellformed (cfg : String → Option String)
    (result : List (String × Val)) (fid : String) (lat : Int)
    (hp : detection_field_ok result "prompt_detected")
    (hr : detection_field_ok result "response_detected") :
    ∃ v, Scripts.parse_response cfg result fid lat = Except.ok v := by
  rw [Scripts.parse_response]
  by_cases herr : (lookupKV result "error").isSome = true
  · rw [if_pos herr]
    exact ⟨_, rfl⟩
  · rw [if_neg herr]
    obtain ⟨⟨a1, a2, a3, s1⟩, hpc⟩ := prompt_checks_ok_of_field _ hp
    obtain ⟨⟨b1, b2, b3, s2⟩, hrc⟩ := response_checks_ok_of_field _ hr
    simp only [hpc, hrc]
    exact ⟨_, rfl⟩

theorem make_request_loop_ok_shape (tr : Nat → Scripts.AttemptOutcome) (maxA : Nat)
    (hnr : ∀ j m, tr j ≠ Scripts.AttemptOutcome.raised m) :
    ∀ (remaining i : Nat), ∃ body n,
      Scripts.make_request_loop tr maxA remaining i = (Except.ok body, n) ∧
      ((lookupKV body "error").isSome = true ∨
       ∃ j s rs, tr j = Scripts.AttemptOutcome.resp s rs body) := by
  intro remaining
  induction remaining with
  | zero =>
    intro i
    exact ⟨_, _, rfl, Or.inl (by simp [lookupKV])⟩
  | succ rem ih =>
    intro i
    rw [Scripts.make_request_loop]
    cases htr : tr i with
    | raised m => exact absurd htr (hnr i m)
    | exc m =>
      simp only
      by_cases hlast : i < maxA - 1
      · rw [if_pos hlast]
        exact ih (i + 1)
      · rw [if_neg hlast]
        exact ⟨_, _, rfl, Or.inl (by simp [lookupKV])⟩
    | resp s rs body =>
      simp only
      by_cases h4 : 400 ≤ s
      · rw [if_pos h4]
        by_cases hlast : i < maxA - 1
        · rw [if_pos hlast]
          exact ih (i + 1)
        · rw [if_neg hlast]
          exact ⟨_, _, rfl, Or.inl (by simp [lookupKV])⟩
      · rw [if_neg h4]
        exact ⟨body, i + 1, rfl, Or.inr ⟨i, s, rs, htr⟩⟩

/-- Claim C6 counterexample: in the scripts variant, a successful (HTTP
200) response whose `prompt_detected` field is a truthy non-dict makes
`_parse_response` raise an `AttributeError`, and `scan` has no exception
handler — the exception propagates to the caller instead of a verdict. -/
theorem scan_exception_counterexample :
    Scripts.scan testEnv (some "hi") none none
      (fun _ => Scripts.AttemptOutcome.resp 200 "OK" [("prompt_detected", Val.vint 5)]) 0 =
      (Except.error "AttributeError", 1) := by
  rfl

/-- Claim C6 amended: the SDK variants never let an exception escape
`scan` — the catch-all handler converts any transport exception into a
WARN `api_error` verdict carrying its message; the scripts variant
returns a verdict provided every transport failure is of the caught
`RequestException` family and every successful body's detection fields
are dicts or falsy, but (per the counterexample) a truthy non-dict
detection field raises past `scan`. -/
theorem scan_no_exception_amended :
    (∀ (env : Sdk.Env) (p r userId sid tid : Option String) (m : String) (lat : Int),
      (check_rate_limit_map env.rateCfg env.rlState (userId.getD "unknown") env.now).1 = false →
      Sdk.content_validate (p.getD "") (r.getD "") = Except.ok () →
      Sdk.scan env p r userId sid tid (Sdk.SdkOutcome.exc m) lat =
        (Sdk.api_error_result env.profile_name lat m, 1)) ∧
    (∀ (env : Scripts.Env) (p r userId : Option String)
        (tr : Nat → Scripts.AttemptOutcome) (lat : Int),
      (∀ j m, tr j ≠ Scripts.AttemptOutcome.raised m) →
      (∀ j s rs body, tr j = Scripts.AttemptOutcome.resp s rs body →
        detection_field_ok body "prompt_detected" ∧
        detection_field_ok body "response_detected") →
      ∃ v n, Scripts.scan env p r userId tr lat = (Except.ok v, n)) := by
  constructor
  · intro env p r userId sid tid m lat hnl hcv
    simp [Sdk.scan, hnl, hcv]
  · intro env p r userId tr lat hnr hwf
    rw [Scripts.scan]
    simp only
    by_cases hrl : (check_rate_limit_map env.rateCfg env.rlState (userId.getD "unknown") env.now).1 = true
    · rw [if_pos hrl]
      exact ⟨_, _, rfl⟩
    · rw [if_neg hrl]
      by_cases hkey : env.api_key = ""
      · rw [if_pos hkey]
        exact ⟨_, _, rfl⟩
      · rw [if_neg hkey]
        obtain ⟨body, n, hmr, hshape⟩ :=
          make_request_loop_ok_shape tr env.maxAttempts hnr env.maxAttempts 0
        rw [Scripts.make_request] at *
        rw [hmr]
        simp only
        rcases hshape with herr | ⟨j, s, rs, htr⟩
        · rw [Scripts.parse_response, if_pos herr]
          exact ⟨_, _, rfl⟩
        · obtain ⟨hp, hq⟩ := hwf j s rs body htr
          obtain ⟨v, hv⟩ := parse_response_ok_of_wellformed env.actionCfg body env.genId lat hp hq
          rw [hv]
          exact ⟨_, _, rfl⟩

theorem scan_no_exception_amended_witness :
    (Sdk.scan
        { profile_name := "default", rateCfg := { enabled := true, windowSeconds := 60, maxRequests := 100 },
          rlState := fun _ => [], now := 0 }
        (some "hi") none none none none (Sdk.SdkOutcome.exc "connection reset") 9 =
      (Sdk.api_error_result "default" 9 "connection reset", 1)) ∧
    ∃ v n, Scripts.scan testEnv (some "hi") none none
      (fun _ => Scripts.AttemptOutcome.resp 200 "OK" []) 0 = (Except.ok v, n) :=
  ⟨scan_no_exception_amended.1
      { profile_name := "default", rateCfg := { enabled := true, windowSeconds := 60, maxRequests := 100 },
        rlState := fun _ => [], now := 0 }
      (some "hi") none none none none "connection reset" 9 rfl rfl,
   scan_no_exception_amended.2 testEnv (some "hi") none none
      (fun _ => Scripts.AttemptOutcome.resp 200 "OK" []) 0
      (fun j m h => Scripts.AttemptOutcome.noConfusion h)
      (fun j s rs body h => by
        cases h
        exact ⟨Or.inl rfl, Or.inl rfl⟩)⟩

/-! ### The categories invariant (claim C7) -/

theorem cats_choice_ne_nil (l : List String) (cat : String) :
    (if l.isEmpty = true then (if cat = "benign" then ["safe"] else [cat]) else l) ≠ [] := by
  split
  · split <;> simp
  · rename_i h
    simpa using h

theorem cats_default_ne_nil (l : List String) :
    (if l.isEmpty = true then ["safe"] else l) ≠ [] := by
  split
  · simp
  · rename_i h
    simpa using h

theorem sdk_parse_categories_ne_nil (profile : String) (resp : Sdk.SdkResp) (lat : Int)
    (sid tid : Option String) :
    (Sdk.parse_response profile resp lat sid tid).categories ≠ [] :=
  cats_choice_ne_nil _ _

theorem sdk_scan_categories_ne_nil (env : Sdk.Env) (p r userId sid tid : Option String)
    (outcome : Sdk.SdkOutcome) (lat : Int) :
    (Sdk.scan env p r userId sid tid outcome lat).1.categories ≠ [] := by
  rw [Sdk.scan.eq_def]
  simp only
  split
  · simp
  · cases hcv : Sdk.content_validate (p.getD "") (r.getD "") with
    | error m =>
      simp only [hcv]
      simp [Sdk.api_error_result]
    | ok u =>
      obtain ⟨⟩ := u
      simp only [hcv]
      cases outcome with
      | exc m => simp [Sdk.api_error_result]
      | ok resp => exact sdk_parse_categories_ne_nil env.profile_name resp lat sid tid

theorem classify_categories_ne_nil (cfg : String → Option String)
    (result : List (String × Val)) (pInj pJb pPii rDlp rMal rPii : Bool) (pS rS : Val)
    (fid : String) (lat : Int) :
    (Scripts.classify cfg result pInj pJb pPii rDlp rMal rPii pS rS fid lat).categories ≠ [] :=
  cats_default_ne_nil _

theorem scripts_parse_categories_ne_nil (cfg : String → Option String)
    (result : List (String × Val)) (fid : String) (lat : Int) (v : Scripts.ScanResult)
    (h : Scripts.parse_response cfg result fid lat = Except.ok v) : v.categories ≠ [] := by
  rw [Scripts.parse_response] at h
  by_cases herr : (lookupKV result "error").isSome = true
  · rw [if_pos herr] at h
    simp only [Except.ok.injEq] at h
    rw [← h]
    simp
  · rw [if_neg herr] at h
    cases hpc : Scripts.prompt_checks ((lookupKV result "prompt_detected").getD (Val.vdict [])) with
    | error e =>
      rw [hpc] at h
      simp at h
    | ok pq =>
      obtain ⟨a1, a2, a3, s1⟩ := pq
      rw [hpc] at h
      simp only at h
      cases hrc : Scripts.response_checks ((lookupKV result "response_detected").getD (Val.vdict [])) with
      | error e =>
        rw [hrc] at h
        simp at h
      | ok rq =>
        obtain ⟨b1, b2, b3, s2⟩ := rq
        rw [hrc] at h
        simp only [Except.ok.injEq] at h
        rw [← h]
        exact classify_categories_ne_nil cfg result a1 a2 a3 b1 b2 b3 s1 s2 fid lat

theorem scripts_scan_categories_ne_nil (env : Scripts.Env) (p r userId : Option String)
    (tr : Nat → Scripts.AttemptOutcome) (lat : Int) (v : Scripts.ScanResult) (n : Nat)
    (h : Scripts.scan env p r userId tr lat = (Except.ok v, n)) : v.categories ≠ [] := by
  rw [Scripts.scan] at h
  simp only at h
  by_cases hrl : (check_rate_limit_map env.rateCfg env.rlState (userId.getD "unknown") env.now).1 = true
  · rw [if_pos hrl] at h
    simp only [Prod.mk.injEq, Except.ok.injEq] at h
    rw [← h.1]
    simp
  · rw [if_neg hrl] at h
    by_cases hkey : env.api_key = ""
    · rw [if_pos hkey] at h
      simp only [Prod.mk.injEq, Except.ok.injEq] at h
      rw [← h.1]
      simp
    · rw [if_neg hkey] at h
      cases hmr : (Scripts.make_request tr env.maxAttempts).1 with
      | error m =>
        rw [hmr] at h
        simp at h
      | ok body =>
        rw [hmr] at h
        simp only [Prod.mk.injEq] at h
        exact scripts_parse_categories_ne_nil env.actionCfg body env.genId lat v h.1

/-- Whether any detection flag of an SDK response fires, exactly as
`_parse_response` reads them. -/
def sdk_detected_any (resp : Sdk.SdkResp) : Bool :=
  (match resp.prompt_detected with
   | some pd => pd.injection.getD false || pd.dlp.getD false || pd.url_cats.getD false
   | none => false) ||
  (match resp.response_detected with
   | some rd => rd.dlp.getD false || rd.url_cats.getD false
   | none => false)

theorem sdk_parse_safe (profile : String) (resp : Sdk.SdkResp) (lat : Int)
    (sid tid : Option String)
    (hdet : sdk_detected_any resp = false)
    (hcat : Sdk.norm_str resp.category "benign" = "benign") :
    (Sdk.parse_response profile resp lat sid tid).categories = ["safe"] := by
  cases hpd : resp.prompt_detected with
  | none =>
    cases hrd : resp.response_detected with
    | none => simp [Sdk.parse_response, hpd, hrd, hcat]
    | some rd =>
      have hdet' := hdet
      rw [sdk_detected_any, hpd, hrd] at hdet'
      simp only [Bool.or_eq_false_iff] at hdet'
      simp [Sdk.parse_response, hpd, hrd, hcat, hdet'.2.1, hdet'.2.2]
  | some pd =>
    cases hrd : resp.response_detected with
    | none =>
      have hdet' := hdet
      rw [sdk_detected_any, hpd, hrd] at hdet'
      simp only [Bool.or_eq_false_iff] at hdet'
      simp [Sdk.parse_response, hpd, hrd, hcat, hdet'.1.1, hdet'.1.2]
    | some rd =>
      have hdet' := hdet
      rw [sdk_detected_any, hpd, hrd] at hdet'
      simp only [Bool.or_eq_false_iff] at hdet'
      simp [Sdk.parse_response, hpd, hrd, hcat,
        hdet'.1.1, hdet'.1.2, hdet'.2.1, hdet'.2.2]

/-- No detection flag fires in a scripts response body: every
detection-field dict carries only falsy flag entries. -/
def scripts_no_detection (result : List (String × Val)) : Prop :=
  (∀ d, (lookupKV result "prompt_detected").getD (Val.vdict []) = Val.vdict d →
    flagOf d "injection_detected" = false ∧ flagOf d "jailbreak_detected" = false ∧
    flagOf d "pii_detected" = false) ∧
  (∀ d, (lookupKV result "response_detected").getD (Val.vdict []) = Val.vdict d →
    flagOf d "dlp_detected" = false ∧ flagOf d "malicious_detected" = false ∧
    flagOf d "pii_detected" = false)

theorem prompt_checks_flags_false (v : Val)
    (hnd : ∀ d, v = Val.vdict d →
      flagOf d "injection_detected" = false ∧ flagOf d "jailbreak_detected" = false ∧
      flagOf d "pii_detected" = false)
    (a b c : Bool) (s : Val)
    (h : Scripts.prompt_checks v = Except.ok (a, b, c, s)) :
    a = false ∧ b = false ∧ c = false := by
  rw [Scripts.prompt_checks.eq_def] at h
  by_cases ht : truthy v = true
  · rw [if_pos ht] at h
    cases v with
    | vdict d =>
      simp only [Except.ok.injEq, Prod.mk.injEq] at h
      obtain ⟨hf, hg, hh, -⟩ := h
      obtain ⟨f1, f2, f3⟩ := hnd d rfl
      exact ⟨hf ▸ f1, hg ▸ f2, hh ▸ f3⟩
    | vint n => simp at h
    | vstr str => simp at h
    | vbool bb => simp at h
    | vlist l => simp at h
  · rw [if_neg ht] at h
    simp only [Except.ok.injEq, Prod.mk.injEq] at h
    exact ⟨h.1.symm, h.2.1.symm, h.2.2.1.symm⟩

theorem response_checks_flags_false (v : Val)
    (hnd : ∀ d, v = Val.vdict d →
      flagOf d "dlp_detected" = false ∧ flagOf d "malicious_detected" = false ∧
      flagOf d "pii_detected" = false)
    (a b c : Bool) (s : Val)
    (h : Scripts.response_checks v = Except.ok (a, b, c, s)) :
    a = false ∧ b = false ∧ c = false := by
  rw [Scripts.response_checks.eq_def] at h
  by_cases ht : truthy v = true
  · rw [if_pos ht] at h
    cases v with
    | vdict d =>
      simp only [Except.ok.injEq, Prod.mk.injEq] at h
      obtain ⟨hf, hg, hh, -⟩ := h
      obtain ⟨f1, f2, f3⟩ := hnd d rfl
      exact ⟨hf ▸ f1, hg ▸ f2, hh ▸ f3⟩
    | vint n => simp at h
    | vstr str => simp at h
    | vbool bb => simp at h
    | vlist l => simp at h
  · rw [if_neg ht] at h
    simp only [Except.ok.injEq, Prod.mk.injEq] at h
    exact ⟨h.1.symm, h.2.1.symm, h.2.2.1.symm⟩

theorem classify_all_false_safe (cfg : String → Option String)
    (result : List (String × Val)) (pS rS : Val) (fid : String) (lat : Int) :
    (Scripts.classify cfg result false false false false false false pS rS fid lat).categories
      = ["safe"] := rfl

theorem scripts_parse_safe (cfg : String → Option String) (result : List (String × Val))
    (fid : String) (lat : Int) (v : Scripts.ScanResult)
    (hok : Scripts.parse_response cfg result fid lat = Except.ok v)
    (herr : lookupKV result "error" = none)
    (hnd : scripts_no_detection result) :
    v.categories = ["safe"] := by
  rw [Scripts.parse_response, herr] at hok
  simp only [Option.isSome_none, Bool.false_eq_true, if_false] at hok
  cases hpc : Scripts.prompt_checks ((lookupKV result "prompt_detected").getD (Val.vdict [])) with
  | error e =>
    rw [hpc] at hok
    simp at hok
  | ok pq =>
    obtain ⟨a1, a2, a3, s1⟩ := pq
    obtain ⟨f1, f2, f3⟩ := prompt_checks_flags_false _ (fun d hd => hnd.1 d hd) a1 a2 a3 s1 hpc
    rw [hpc] at hok
    simp only at hok
    cases hrc : Scripts.response_checks ((lookupKV result "response_detected").getD (Val.vdict [])) with
    | error e =>
      rw [hrc] at hok
      simp at hok
    | ok rq =>
      obtain ⟨b1, b2, b3, s2⟩ := rq
      obtain ⟨g1, g2, g3⟩ := response_checks_flags_false _ (fun d hd => hnd.2 d hd) b1 b2 b3 s2 hrc
      rw [hrc] at hok
      simp only [Except.ok.injEq] at hok
      subst f1; subst f2; subst f3; subst g1; subst g2; subst g3
      rw [← hok]
      exact classify_all_false_safe cfg result s1 s2 fid lat

/-- Claim C7: every verdict `scan` returns — rate-limit rejection,
configuration error, transport failure, or genuine remote classification
— carries a non-empty categories list, and when no detection flag fired
and the top-level category is benign, the list is exactly `["safe"]`. -/
theorem verdict_categories_invariant :
    (∀ (env : Sdk.Env) (p r userId sid tid : Option String) (outcome : Sdk.SdkOutcome)
        (lat : Int), (Sdk.scan env p r userId sid tid outcome lat).1.categories ≠ []) ∧
    (∀ (env : Scripts.Env) (p r userId : Option String) (tr : Nat → Scripts.AttemptOutcome)
        (lat : Int) (v : Scripts.ScanResult) (n : Nat),
      Scripts.scan env p r userId tr lat = (Except.ok v, n) → v.categories ≠ []) ∧
    (∀ (profile : String) (resp : Sdk.SdkResp) (lat : Int) (sid tid : Option String),
      sdk_detected_any resp = false → Sdk.norm_str resp.category "benign" = "benign" →
      (Sdk.parse_response profile resp lat sid tid).categories = ["safe"]) ∧
    (∀ (cfg : String → Option String) (result : List (String × Val)) (fid : String)
        (lat : Int) (v : Scripts.ScanResult),
      Scripts.parse_response cfg result fid lat = Except.ok v →
      lookupKV result "error" = none → scripts_no_detection result →
      v.categories = ["safe"]) :=
  ⟨sdk_scan_categories_ne_nil, scripts_scan_categories_ne_nil, sdk_parse_safe,
    scripts_parse_safe⟩

/-- An SDK response with no detections and a benign top-level category. -/
def benignResp : Sdk.SdkResp :=
  { scan_id := some "s2", report_id := none, profile_name := none,
    category := some "benign", action := some "allow",
    prompt_detected := none, response_detected := none, tr_id := none }

theorem verdict_categories_invariant_witness :
    (Sdk.scan
        { profile_name := "default", rateCfg := { enabled := true, windowSeconds := 60, maxRequests := 100 },
          rlState := fun _ => [], now := 0 }
        (some "hi") none none none none (Sdk.SdkOutcome.ok benignResp) 2).1.categories ≠ [] ∧
    (∃ v n, Scripts.scan testEnv (some "hi") none none
        (fun _ => Scripts.AttemptOutcome.resp 200 "OK" []) 0 = (Except.ok v, n) ∧
      v.categories ≠ []) ∧
    (Sdk.parse_response "default" benignResp 2 none none).categories = ["safe"] ∧
    (∃ v, Scripts.parse_response (fun _ => none) [] "id" 0 = Except.ok v ∧
      v.categories = ["safe"]) :=
  ⟨verdict_categories_invariant.1
      { profile_name := "default", rateCfg := { enabled := true, windowSeconds := 60, maxRequests := 100 },
        rlState := fun _ => [], now := 0 }
      (some "hi") none none none none (Sdk.SdkOutcome.ok benignResp) 2,
   ⟨_, _, rfl, verdict_categories_invariant.2.1 testEnv (some "hi") none none
      (fun _ => Scripts.AttemptOutcome.resp 200 "OK" []) 0 _ _ rfl⟩,
   verdict_categories_invariant.2.2.1 "default" benignResp 2 none none rfl rfl,
   ⟨_, rfl, verdict_categories_invariant.2.2.2 (fun _ => none) [] "id" 0 _ rfl rfl
      ⟨fun d hd => by cases hd; exact ⟨rfl, rfl, rfl⟩,
       fun d hd => by cases hd; exact ⟨rfl, rfl, rfl⟩⟩⟩⟩
